import Mathlib

/-!
Verification of the label-encoding, metric-computation and report-writing logic of
`run_tc.py`, the single source file of the SwissJudgementPrediction repository.

The script fine-tunes a transformer for text classification; the logic original to
the repository is (a) the label registry loaded from `data/labels.json` and the
single- and multi-label encoders built on it, (b) the `compute_metrics` callback, and
(c) the predictions/report file writers guarded by `is_world_process_zero`.
Third-party helpers the script calls with (`sklearn.preprocessing.MultiLabelBinarizer`,
`np.argmax`, `sklearn.metrics`, `transformers.trainer_utils.get_last_checkpoint`)
are embedded with their library semantics, since the script's behaviour depends
on them.  Floating-point scores are modelled as rationals; a Python exception is
modelled as `Option.none` / `Except.error`.
-/

/-- The three values of `ModelArguments.problem_type` in `run_tc.py`
(`"regression" | "single_label_classification" | "multi_label_classification"`). -/
inductive ProblemType
  | regression
  | singleLabel
  | multiLabel
deriving DecidableEq, Repr

/-- Modelled from the spec: the side-file `data/labels.json` is data of the repository
that is not under `src/`.  Per the spec (§3, §6) it stores one bijective name↔id
mapping as two sub-objects, `label2id` (name → id, ids serialized as strings and
coerced with `int(v)` on load) and `id2label` (id → name) holding the inverse pairs
of the same mapping.  A `LabelsJson` value is the parsed file, represented by the
`label2id` entries in JSON key order; `id2label` is the inverse pair list. -/
structure LabelsJson where
  label2idPairs : List (String × Nat)
deriving DecidableEq, Repr

/-- The `id2label` sub-object of `labels.json`: per the spec, the inverse pairs of
`label2id` (keys coerced with `int(k)` on load in `run_tc.py` line 251). -/
def LabelsJson.id2labelPairs (j : LabelsJson) : List (Nat × String) :=
  j.label2idPairs.map (fun p => (p.2, p.1))

/-- `label_dict["label2id"][name]`: Python dict lookup by label name
(`run_tc.py` line 307).  `none` models a `KeyError`. -/
def LabelsJson.label2id (j : LabelsJson) (name : String) : Option Nat :=
  (j.label2idPairs.find? (fun p => p.1 == name)).map (fun p => p.2)

/-- `label_dict["id2label"][i]`: Python dict lookup by integer id
(`run_tc.py` line 449).  `none` models a `KeyError`. -/
def LabelsJson.id2label (j : LabelsJson) (i : Nat) : Option String :=
  (j.id2labelPairs.find? (fun p => p.1 == i)).map (fun p => p.2)

/-- `label_list = list(label_dict["label2id"].keys())` (`run_tc.py` line 253). -/
def LabelsJson.labelList (j : LabelsJson) : List String :=
  j.label2idPairs.map (fun p => p.1)

/-- `num_labels = len(label_list)` (`run_tc.py` line 254). -/
def LabelsJson.numLabels (j : LabelsJson) : Nat :=
  j.labelList.length

/-- Code-point lexicographic strict comparison of character lists: the order Python
uses to compare strings (and hence the order `sorted` uses inside
`MultiLabelBinarizer.fit`). -/
def strLtB : List Char → List Char → Bool
  | [], [] => false
  | [], _ :: _ => true
  | _ :: _, [] => false
  | a :: as, b :: bs =>
    if a.toNat < b.toNat then true
    else if b.toNat < a.toNat then false
    else strLtB as bs

/-- `s <= t` on strings, code-point lexicographic (Python's string order). -/
def strLeB (s t : String) : Bool := !(strLtB t.data s.data)

/-- Insert a string into a list sorted by `strLeB` (helper for the model of
Python's `sorted`). -/
def insertStr (x : String) : List String → List String
  | [] => [x]
  | y :: ys => if strLeB x y then x :: y :: ys else y :: insertStr x ys

/-- Insertion sort by `strLeB`: the model of Python's `sorted` on strings. -/
def sortStrs : List String → List String
  | [] => []
  | x :: xs => insertStr x (sortStrs xs)

/-- `MultiLabelBinarizer().fit([label_list]).classes_` (`run_tc.py` line 257):
sklearn sets `classes_` to `sorted(set(itertools.chain.from_iterable(y)))`, the
lexicographically sorted deduplicated label vocabulary — not the registry's
insertion order. -/
def mlbClasses (labelList : List String) : List String :=
  sortStrs labelList.dedup

/-- One row of `mlb.transform([labels])` (`run_tc.py` line 304): the indicator row
has a 1 exactly at the positions (in `classes_` order) of the input labels that are
known classes.  sklearn's `_transform` looks each input label up in
`class_to_index` and *ignores* labels that are absent, emitting only a warning, so
the function is total. -/
def mlb_transform_row (classes : List String) (labels : List String) : List Nat :=
  classes.map (fun c => if c ∈ labels then 1 else 0)

/-- One row of `mlb.inverse_transform` on an integer indicator row
(`classes_.compress(indicators)`): the classes at the positions whose entry is
nonzero, in `classes_` order. -/
def mlb_inverse_transform_row (classes : List String) (row : List Nat) : List String :=
  (classes.zip row).filterMap (fun p => if p.2 ≠ 0 then some p.1 else none)

/-- One row of `mlb.inverse_transform` on a boolean indicator row, as used on the
thresholded predictions in `run_tc.py` line 447. -/
def mlb_inverse_transform_rowB (classes : List String) (row : List Bool) : List String :=
  (classes.zip row).filterMap (fun p => if p.2 then some p.1 else none)

/-- The `label` cell of one CSV row, after the parsing the script applies to it:
a bare label name in single-label mode, or (multi-label mode) the list of names the
Python `eval` of the printable list literal produces. -/
inductive LabelField
  | name : String → LabelField
  | names : List String → LabelField
deriving DecidableEq, Repr

/-- The encoded `"label"` column that `preprocess_function` adds to the tokenized
batch: integer ids (single-label), multi-hot rows (multi-label), or absent
(regression mode sets no `"label"` key). -/
inductive LabelColumn
  | ids : List Nat → LabelColumn
  | multihot : List (List Nat) → LabelColumn
deriving DecidableEq, Repr

/-- The dict returned by `preprocess_function`: the tokenizer output (modelled
abstractly as the token-id rows) plus the optional `"label"` column.  Because the
surrounding `dataset.map(..., remove_columns=dataset.column_names)` calls remove
every original column, these keys are exactly the columns the trainer receives. -/
structure TokenizedBatch where
  inputIds : List (List Nat)
  label : Option LabelColumn
deriving DecidableEq, Repr

/-- Single-label encoding of one cell: `label_dict["label2id"][l]` (`run_tc.py`
line 307).  A cell that is not a bare name would make the Python dict lookup raise
(`TypeError` on an unhashable list), modelled as `none`. -/
def encodeSingleCell (j : LabelsJson) : LabelField → Option Nat
  | .name n => j.label2id n
  | .names _ => none

/-- Multi-label encoding of one cell: `mlb.transform([eval(labels)])[0]`
(`run_tc.py` line 304).  A bare-name cell would make `eval` raise (`NameError`),
modelled as `none`; a list cell is transformed to its multi-hot row, unknown names
being silently ignored by sklearn. -/
def encodeMultiCell (classes : List String) : LabelField → Option (List Nat)
  | .name _ => none
  | .names ls => some (mlb_transform_row classes ls)

/-- `preprocess_function` (`run_tc.py` lines 298–308): tokenize the texts, then
map labels to ids.  In multi-label mode `batch["label"]` is accessed
unconditionally (a missing column raises, modelled `none`); in single-label mode
the branch is guarded by `"label" in batch`; in regression mode no label encoding
runs and the returned dict has no `"label"` key. -/
def preprocess_function (pt : ProblemType) (j : LabelsJson)
    (tokenize : List String → List (List Nat))
    (texts : List String) (labelCol : Option (List LabelField)) :
    Option TokenizedBatch := do
  let tokenized := tokenize texts
  match pt with
  | .multiLabel =>
      match labelCol with
      | none => none
      | some cells =>
          let rows ← cells.mapM (encodeMultiCell (mlbClasses j.labelList))
          some { inputIds := tokenized, label := some (.multihot rows) }
  | .singleLabel =>
      match labelCol with
      | none => some { inputIds := tokenized, label := none }
      | some cells =>
          let ids ← cells.mapM (encodeSingleCell j)
          some { inputIds := tokenized, label := some (.ids ids) }
  | .regression => some { inputIds := tokenized, label := none }

/-- A dynamically-typed numpy array as passed around inside `compute_metrics`:
1-D or 2-D numeric (rationals model the floats), or 1-D/2-D boolean. -/
inductive Arr
  | n1 : List Rat → Arr
  | n2 : List (List Rat) → Arr
  | b1 : List Bool → Arr
  | b2 : List (List Bool) → Arr
deriving DecidableEq, Repr

/-- `labels_to_bools(labels) = [tl == 1 for tl in labels]` (`run_tc.py` line 343):
elementwise comparison with 1.  On an already-boolean array numpy's `== 1` is the
identity (`True == 1`). -/
def labels_to_bools : Arr → Arr
  | .n1 xs => .b1 (xs.map (fun x => x == 1))
  | .n2 rows => .b2 (rows.map (fun r => r.map (fun x => x == 1)))
  | .b1 xs => .b1 xs
  | .b2 rows => .b2 rows

/-- `preds_to_bools(preds) = [pl > prediction_threshold for pl in preds]`
(`run_tc.py` line 346): elementwise *strict* comparison with the threshold (an
`int` field, default 0).  On booleans numpy compares their 0/1 value. -/
def preds_to_bools (t : Int) : Arr → Arr
  | .n1 xs => .b1 (xs.map (fun x => x > (t : Rat)))
  | .n2 rows => .b2 (rows.map (fun r => r.map (fun x => x > (t : Rat))))
  | .b1 xs => .b1 (xs.map (fun b => (if b then (1 : Int) else 0) > t))
  | .b2 rows => .b2 (rows.map (fun r => r.map (fun b => (if b then (1 : Int) else 0) > t)))

/-- `np.argmax(r)` for one row: the first index attaining the maximum; numpy
raises on an empty row (`none`). -/
def argmaxIdx (r : List Rat) : Option Nat :=
  r.max?.map (fun m => r.indexOf m)

/-- `np.argmax(preds, axis=1)` (`run_tc.py` lines 359, 438): rowwise first-max
index of a 2-D array (booleans count as 0/1); numpy raises on other shapes. -/
def argmaxAxis1 : Arr → Option Arr
  | .n2 rows => (rows.mapM argmaxIdx).map (fun ns => .n1 (ns.map (fun n => Nat.cast n)))
  | .b2 rows =>
      ((rows.map (fun r => r.map (fun b => if b then (1 : Rat) else 0))).mapM argmaxIdx).map
        (fun ns => .n1 (ns.map (fun n => Nat.cast n)))
  | _ => none

/-- The reduction step of `compute_metrics` (`run_tc.py` lines 352–359): in
multi-label mode both arrays are mapped to booleans; in single-label mode the
predictions are arg-maxed; in regression mode both pass through unreduced. -/
def metricsReduce (pt : ProblemType) (t : Int) (labelIds preds : Arr) :
    Arr × Option Arr :=
  let (labels, preds) :=
    if pt = .multiLabel then (labels_to_bools labelIds, preds_to_bools t preds)
    else (labelIds, preds)
  (labels, if pt = .singleLabel then argmaxAxis1 preds else some preds)

/-- `accuracy_score(y_true, y_pred)` on 1-D arrays: the fraction of positions
where the two agree. -/
def accuracy1 (yt yp : List Rat) : Rat :=
  ((( yt.zip yp).filter (fun q => q.1 == q.2)).length : Rat) / (yt.length : Rat)

/-- Number of occurrences of class `c` in a 1-D array (sklearn's per-class
`pred_sum` / `true_sum` counts). -/
def countEq (ys : List Rat) (c : Rat) : Nat :=
  (ys.filter (fun y => y == c)).length

/-- Per-class true-positive count on 1-D arrays. -/
def tpCount (yt yp : List Rat) (c : Rat) : Nat :=
  ((yt.zip yp).filter (fun q => q.1 == c && q.2 == c)).length

/-- The class set sklearn uses when `labels=None`: the distinct values present in
`y_true` or `y_pred` (sklearn sorts them; the weighted sums below do not depend on
the order, so the deduplicated union is used directly). -/
def classValues (yt yp : List Rat) : List Rat :=
  (yt ++ yp).dedup

/-- Per-class precision `tp / pred_sum`; sklearn emits 0 (with a warning) when
`pred_sum = 0`, which coincides with `Rat` division by zero. -/
def precisionClass (yt yp : List Rat) (c : Rat) : Rat :=
  (tpCount yt yp c : Rat) / (countEq yp c : Rat)

/-- Per-class recall `tp / true_sum`; 0 when the class has no support. -/
def recallClass (yt yp : List Rat) (c : Rat) : Rat :=
  (tpCount yt yp c : Rat) / (countEq yt c : Rat)

/-- Per-class F1 `2pr/(p+r)`; sklearn emits 0 when `p + r = 0`, which coincides
with `Rat` division by zero. -/
def f1Class (yt yp : List Rat) (c : Rat) : Rat :=
  2 * precisionClass yt yp c * recallClass yt yp c /
    (precisionClass yt yp c + recallClass yt yp c)

/-- `average='weighted'` (`run_tc.py` line 363): per-class values averaged with
each class's support (`true_sum`) as weight. -/
def weightedAvg (metric : Rat → Rat) (yt yp : List Rat) : Rat :=
  ((classValues yt yp).map (fun c => metric c * (countEq yt c : Rat))).sum /
    ((classValues yt yp).map (fun c => (countEq yt c : Rat))).sum

/-- Weighted-average precision of `precision_recall_fscore_support(..., average='weighted')`. -/
def precisionWeighted (yt yp : List Rat) : Rat :=
  weightedAvg (precisionClass yt yp) yt yp

/-- Weighted-average recall of `precision_recall_fscore_support(..., average='weighted')`. -/
def recallWeighted (yt yp : List Rat) : Rat :=
  weightedAvg (recallClass yt yp) yt yp

/-- Weighted-average F1 of `precision_recall_fscore_support(..., average='weighted')`. -/
def f1Weighted (yt yp : List Rat) : Rat :=
  weightedAvg (f1Class yt yp) yt yp

/-- `accuracy_score` on 2-D boolean (multilabel-indicator) arrays: sklearn's
subset accuracy, the fraction of examples whose entire rows agree. -/
def subsetAccuracy (yt yp : List (List Bool)) : Rat :=
  (((yt.zip yp).filter (fun q => q.1 == q.2)).length : Rat) / (yt.length : Rat)

/-- Column `j` read as 0/1 support count over a 2-D boolean array. -/
def colCount (rows : List (List Bool)) (jdx : Nat) : Nat :=
  (rows.filter (fun r => r.getD jdx false)).length

/-- Per-column true positives over paired 2-D boolean arrays. -/
def colTp (yt yp : List (List Bool)) (jdx : Nat) : Nat :=
  ((yt.zip yp).filter (fun q => q.1.getD jdx false && q.2.getD jdx false)).length

/-- Per-label precision in the multilabel case. -/
def precisionCol (yt yp : List (List Bool)) (jdx : Nat) : Rat :=
  (colTp yt yp jdx : Rat) / (colCount yp jdx : Rat)

/-- Per-label recall in the multilabel case. -/
def recallCol (yt yp : List (List Bool)) (jdx : Nat) : Rat :=
  (colTp yt yp jdx : Rat) / (colCount yt jdx : Rat)

/-- Per-label F1 in the multilabel case. -/
def f1Col (yt yp : List (List Bool)) (jdx : Nat) : Rat :=
  2 * precisionCol yt yp jdx * recallCol yt yp jdx /
    (precisionCol yt yp jdx + recallCol yt yp jdx)

/-- Support-weighted average of a per-label metric over the label columns
(multilabel `average='weighted'`). -/
def weightedAvgCols (yt : List (List Bool)) (metric : Nat → Rat) : Rat :=
  (((List.range (yt.headD []).length).map (fun jdx => metric jdx * (colCount yt jdx : Rat))).sum) /
    (((List.range (yt.headD []).length).map (fun jdx => (colCount yt jdx : Rat))).sum)

/-- The dictionary `compute_metrics` returns (`run_tc.py` lines 364–369):
exactly the four scalar metrics, keyed `'accuracy'`, `'precision'`, `'recall'`,
`'f1_score'` in the source (the third field is named `recallVal` here because
`recall` is a reserved word in this development's prover). -/
structure Metrics where
  accuracy : Rat
  precision : Rat
  recallVal : Rat
  f1_score : Rat
deriving DecidableEq, Repr

/-- The metric evaluation at the end of `compute_metrics`: `accuracy_score` plus
`precision_recall_fscore_support(..., average='weighted')` on the reduced arrays.
Defined on the array shapes that occur in the script's flows (1-D classification
targets and 2-D boolean indicator matrices, with equal lengths); on the remaining
shape combinations sklearn raises, modelled as `none`. -/
def evalMetricsPair : Arr → Arr → Option Metrics
  | .n1 a, .n1 b =>
      if a.length = b.length then
        some ⟨accuracy1 a b, precisionWeighted a b, recallWeighted a b, f1Weighted a b⟩
      else none
  | .b1 a, .b1 b =>
      if a.length = b.length then
        let ar := a.map (fun x => if x then (1 : Rat) else 0)
        let br := b.map (fun x => if x then (1 : Rat) else 0)
        some ⟨accuracy1 ar br, precisionWeighted ar br, recallWeighted ar br, f1Weighted ar br⟩
      else none
  | .b2 a, .b2 b =>
      if a.length = b.length then
        some ⟨subsetAccuracy a b, weightedAvgCols a (precisionCol a b),
              weightedAvgCols a (recallCol a b), weightedAvgCols a (f1Col a b)⟩
      else none
  | _, _ => none

/-- `compute_metrics` (`run_tc.py` lines 351–369): reduce the raw arrays
according to the problem type, then return the four metrics.  `none` models an
exception escaping the callback (numpy/sklearn raising on a bad shape). -/
def compute_metrics (pt : ProblemType) (t : Int) (labelIds preds : Arr) :
    Option Metrics := do
  let (labels, predsRed) := metricsReduce pt t labelIds preds
  let p ← predsRed
  evalMetricsPair labels p

/-- The reduced predictions entering the predictions-file loop (`run_tc.py`
lines 435–438): arg-maxed ids in single-label mode, thresholded boolean rows in
multi-label mode. -/
inductive PredsOut
  | single : List Nat → PredsOut
  | multi : List (List Bool) → PredsOut
deriving DecidableEq, Repr

/-- Python `repr` of a string (as it appears inside a formatted list or tuple);
label names are assumed to contain no quote or backslash, as the spec's label
vocabulary does. -/
def pyStrRepr (s : String) : String := "'" ++ s ++ "'"

/-- Python `str` of a list of strings, as produced by
`f"{index}\t{pred_strings}"` on `pred_strings = [label_dict["id2label"][pred]]`. -/
def pyListRepr (xs : List String) : String :=
  "[" ++ String.intercalate ", " (xs.map pyStrRepr) ++ "]"

/-- Python `str` of a tuple of strings, as produced on the
`mlb.inverse_transform(...)[0]` tuples (note the singleton trailing comma). -/
def pyTupleRepr : List String → String
  | [] => "()"
  | [x] => "(" ++ pyStrRepr x ++ ",)"
  | xs => "(" ++ String.intercalate ", " (xs.map pyStrRepr) ++ ")"

/-- The `pred_strings` rendering of one prediction (`run_tc.py` lines 446–449):
single-label wraps the decoded name in a one-element list (a `KeyError` on an
unknown id is `none`); multi-label decodes the boolean row to the tuple of label
names. -/
def renderPred (j : LabelsJson) (classes : List String) :
    (Nat ⊕ List Bool) → Option String
  | .inl pred => (j.id2label pred).map (fun name => pyListRepr [name])
  | .inr row => some (pyTupleRepr (mlb_inverse_transform_rowB classes row))

/-- The `for index, pred in enumerate(preds)` writer loop (`run_tc.py`
lines 445–450), with the file contents written so far as accumulator: each
iteration appends `f"{index}\t{pred_strings}\n"`. -/
def writePredLoop (j : LabelsJson) (classes : List String) (idx : Nat)
    (acc : String) : List (Nat ⊕ List Bool) → Option String
  | [] => some acc
  | p :: ps => do
      let s ← renderPred j classes p
      writePredLoop j classes (idx + 1) (acc ++ toString idx ++ "\t" ++ s ++ "\n") ps

/-- The prediction items the loop enumerates, per problem type. -/
def predItems : PredsOut → List (Nat ⊕ List Bool)
  | .single ids => ids.map .inl
  | .multi rows => rows.map .inr

/-- The full contents of `predictions.txt` (`run_tc.py` lines 443–450): the
header line, then the enumerated rows. -/
def writePredictionsFile (j : LabelsJson) (classes : List String)
    (preds : PredsOut) : Option String :=
  writePredLoop j classes 0 "index\tprediction\n" (predItems preds)

/-- Closed form of the arg-maxed predictions column used by the single-label
metric claims. -/
def argmaxPreds (scores : List (List Rat)) : List Rat :=
  scores.map (fun r => Nat.cast ((argmaxIdx r).getD 0))

/-- Concatenation of a list of strings (the contents the writer loop emits, in
order). -/
def strJoin : List String → String
  | [] => ""
  | x :: xs => x ++ strJoin xs

/-- The two output artifacts of the prediction step, by path: `none` means the
path does not exist.  Only these two paths are written by the guarded block. -/
structure OutFiles where
  predictionsTxt : Option String
  predictionReportTxt : Option String
deriving DecidableEq, Repr

/-- The guarded writer block (`run_tc.py` lines 441–471): both files are opened
and written only under `if trainer.is_world_process_zero():`; otherwise the block
is skipped and the file system is untouched. -/
def predictionWriteStep (isWorldProcessZero : Bool)
    (predContent reportContent : String) (fs : OutFiles) : OutFiles :=
  if isWorldProcessZero then
    { predictionsTxt := some predContent, predictionReportTxt := some reportContent }
  else fs

/-- One entry of `os.listdir(output_dir)`: a name plus whether it is a
directory. -/
structure DirEntry where
  name : String
  isDir : Bool
deriving DecidableEq, Repr

/-- The regex `^checkpoint\-(\d+)$` of `transformers.trainer_utils`: the literal
`checkpoint-` followed by one or more digits. -/
def isCheckpointName (s : String) : Bool :=
  s.take 11 == "checkpoint-" && s.data.length > 11 && (s.data.drop 11).all Char.isDigit

/-- Numeric value of the digit suffix of a checkpoint directory name. -/
def checkpointNum (s : String) : Nat :=
  (s.data.drop 11).foldl (fun acc c => acc * 10 + (c.toNat - 48)) 0

/-- `get_last_checkpoint(folder)` from `transformers.trainer_utils`, as called in
`run_tc.py` line 192: among the directory entries matching the checkpoint regex,
return the name with the largest step number (Python `max` keeps the first
maximal element), or `None` when there is none. -/
def get_last_checkpoint (entries : List DirEntry) : Option String :=
  let cps := (entries.filter (fun e => isCheckpointName e.name && e.isDir)).map (fun e => e.name)
  cps.foldl (fun best nm =>
    match best with
    | none => some nm
    | some b => if checkpointNum nm > checkpointNum b then some nm else some b) none

/-- The last-checkpoint detection block of `main` (`run_tc.py` lines 189–202):
when the output directory exists, training is requested and the overwrite flag is
unset, a `ValueError` (the `Except.error` case) is raised exactly when no
checkpoint is found in a non-empty directory. -/
def detectLastCheckpoint (outputDirIsDir : Bool) (entries : List DirEntry)
    (doTrain overwriteOutputDir : Bool) : Except String (Option String) :=
  if outputDirIsDir && doTrain && !overwriteOutputDir then
    match get_last_checkpoint entries with
    | none =>
        if entries.length > 0 then
          .error "Output directory already exists and is not empty. Use --overwrite_output_dir to overcome."
        else .ok none
    | some cp => .ok (some cp)
  else .ok none

/-- The pieces of work `main` performs after the checkpoint detection, in source
order (`run_tc.py` lines 239 onward). -/
inductive MainAction
  | loadTrainSet
  | loadEvalSet
  | loadPredictSet
  | loadLabelRegistry
  | loadModel
  | preprocessDatasets
  | trainStep
  | evalStep
  | predictStep
deriving DecidableEq, Repr

/-- The control skeleton of `main`: the checkpoint detection runs first
(line 191), before any dataset loading (lines 239–246), registry/model loading,
preprocessing, training, evaluation or prediction; if it raises, nothing else
happens. -/
def mainPipeline (outputDirIsDir : Bool) (entries : List DirEntry)
    (doTrain doEval doPredict overwriteOutputDir : Bool) :
    Except String (List MainAction) := do
  let _lastCheckpoint ← detectLastCheckpoint outputDirIsDir entries doTrain overwriteOutputDir
  let loads := (if doTrain then [MainAction.loadTrainSet] else []) ++
    (if doEval then [MainAction.loadEvalSet] else []) ++
    (if doPredict then [MainAction.loadPredictSet] else [])
  let steps := (if doTrain then [MainAction.trainStep] else []) ++
    (if doEval then [MainAction.evalStep] else []) ++
    (if doPredict then [MainAction.predictStep] else [])
  pure (loads ++ [MainAction.loadLabelRegistry, MainAction.loadModel,
    MainAction.preprocessDatasets] ++ steps)

theorem mem_insertStr {a x : String} {l : List String} :
    a ∈ insertStr x l ↔ a = x ∨ a ∈ l := by
  induction l with
  | nil => simp [insertStr]
  | cons y ys ih =>
      by_cases hxy : strLeB x y
      · simp [insertStr, hxy]
      · simp only [insertStr, hxy, Bool.false_eq_true, if_false, List.mem_cons, ih]
        tauto

theorem perm_insertStr (x : String) (l : List String) :
    List.Perm (insertStr x l) (x :: l) := by
  induction l with
  | nil => simp [insertStr]
  | cons y ys ih =>
      by_cases hxy : strLeB x y
      · simp [insertStr, hxy]
      · simp only [insertStr, hxy, Bool.false_eq_true, if_false]
        exact (ih.cons y).trans (List.Perm.swap x y ys)

theorem perm_sortStrs (l : List String) : List.Perm (sortStrs l) l := by
  induction l with
  | nil => simp [sortStrs]
  | cons x xs ih => exact (perm_insertStr x (sortStrs xs)).trans (ih.cons x)

theorem mem_sortStrs {a : String} {l : List String} : a ∈ sortStrs l ↔ a ∈ l :=
  (perm_sortStrs l).mem_iff

theorem mem_mlbClasses {a : String} {l : List String} : a ∈ mlbClasses l ↔ a ∈ l := by
  rw [mlbClasses, mem_sortStrs, List.mem_dedup]

theorem nodup_mlbClasses (l : List String) : (mlbClasses l).Nodup :=
  ((perm_sortStrs l.dedup).nodup_iff).mpr l.nodup_dedup

theorem lookup_roundtrip (pairs : List (String × Nat)) (name : String)
    (hname : name ∈ pairs.map (fun p => p.1))
    (hids : (pairs.map (fun p => p.2)).Nodup) :
    ∃ i, (pairs.find? (fun p => p.1 == name)).map (fun p => p.2) = some i ∧
      ((pairs.map (fun p => (p.2, p.1))).find? (fun p => p.1 == i)).map
        (fun p => p.2) = some name := by
  induction pairs with
  | nil => simp at hname
  | cons hd rest ih =>
      by_cases hn : hd.1 = name
      · refine ⟨hd.2, ?_, ?_⟩
        · simp [List.find?_cons, hn]
        · simp [List.find?_cons, hn]
      · have hname' : name ∈ rest.map (fun p => p.1) := by
          simp only [List.map_cons, List.mem_cons] at hname
          exact hname.resolve_left (fun h => hn h.symm)
        have hids' : (rest.map (fun p => p.2)).Nodup := (List.nodup_cons.mp hids).2
        obtain ⟨i, hfind, hinv⟩ := ih hname' hids'
        refine ⟨i, ?_, ?_⟩
        · simpa [List.find?_cons, hn] using hfind
        · have hmem : i ∈ rest.map (fun p => p.2) := by
            obtain ⟨q, hq, hq2⟩ := Option.map_eq_some'.mp hfind
            exact hq2 ▸ List.mem_map_of_mem _ (List.mem_of_find?_eq_some hq)
          have hne : hd.2 ≠ i := fun h => (List.nodup_cons.mp hids).1 (by simpa [h] using hmem)
          simpa [List.find?_cons, hne] using hinv

/-- Claim C1: for every label name present in the registry loaded from
`labels.json`, decoding the encoded id yields the same name:
`id2label[label2id[name]] == name`. -/
theorem C1_single_label_roundtrip (j : LabelsJson) (name : String)
    (hname : name ∈ j.labelList)
    (hids : (j.label2idPairs.map (fun p => p.2)).Nodup) :
    ∃ i, j.label2id name = some i ∧ j.id2label i = some name := by
  simpa [LabelsJson.label2id, LabelsJson.id2label, LabelsJson.id2labelPairs] using
    lookup_roundtrip j.label2idPairs name hname hids

/-- Concrete instance of C1 on a two-entry registry. -/
theorem C1_single_label_roundtrip_witness :
    ∃ i, LabelsJson.label2id ⟨[("approval", 0), ("dismissal", 1)]⟩ "dismissal" = some i ∧
      LabelsJson.id2label ⟨[("approval", 0), ("dismissal", 1)]⟩ i = some "dismissal" :=
  C1_single_label_roundtrip ⟨[("approval", 0), ("dismissal", 1)]⟩ "dismissal"
    (by decide) (by decide)

theorem strLtB_asymm : ∀ (a b : List Char), strLtB a b = true → strLtB b a = false
  | [], [] => by simp [strLtB]
  | [], _ :: _ => by simp [strLtB]
  | _ :: _, [] => by simp [strLtB]
  | a :: as, b :: bs => by
      intro h
      simp only [strLtB] at h ⊢
      rcases Nat.lt_trichotomy a.toNat b.toNat with hc | hc | hc
      · simp [hc, Nat.lt_asymm hc]
      · have h1 : ¬ a.toNat < b.toNat := by omega
        have h2 : ¬ b.toNat < a.toNat := by omega
        simp only [h1, h2, if_false] at h
        simp [h1, h2, strLtB_asymm as bs h]
      · simp [hc, Nat.lt_asymm hc] at h

theorem strLtB_conn : ∀ (a b c : List Char),
    strLtB a c = true → strLtB a b = true ∨ strLtB b c = true
  | a, _, [] => fun h => absurd h (by cases a <;> simp [strLtB])
  | _, [], _ :: _ => fun _ => .inr (by simp [strLtB])
  | [], _ :: _, _ :: _ => fun _ => .inl (by simp [strLtB])
  | x :: as, y :: bs, z :: cs => fun h => by
      by_cases hxy : x.toNat < y.toNat
      · left; simp [strLtB, hxy]
      · by_cases hyz : y.toNat < z.toNat
        · right; simp [strLtB, hyz]
        · simp only [strLtB] at h
          by_cases hzx : z.toNat < x.toNat
          · have hxz : ¬ x.toNat < z.toNat := by omega
            simp [hxz, hzx] at h
          · have hxz : ¬ x.toNat < z.toNat := by omega
            simp only [hxz, hzx, if_false] at h
            have hyx : ¬ y.toNat < x.toNat := by omega
            have hzy : ¬ z.toNat < y.toNat := by omega
            rcases strLtB_conn as bs cs h with h1 | h1
            · left; simp [strLtB, hxy, hyx, h1]
            · right; simp [strLtB, hyz, hzy, h1]

theorem strLeB_total (x y : String) : strLeB x y = true ∨ strLeB y x = true := by
  simp only [strLeB, Bool.not_eq_true']
  cases h : strLtB y.data x.data with
  | false => exact .inl rfl
  | true => exact .inr (strLtB_asymm _ _ h)

theorem strLeB_trans {x y z : String} (h1 : strLeB x y = true)
    (h2 : strLeB y z = true) : strLeB x z = true := by
  simp only [strLeB, Bool.not_eq_true'] at h1 h2 ⊢
  cases hzx : strLtB z.data x.data with
  | false => rfl
  | true =>
      rcases strLtB_conn z.data y.data x.data hzx with h | h
      · rw [h] at h2; cases h2
      · rw [h] at h1; cases h1

theorem pairwise_insertStr {x : String} {l : List String}
    (h : l.Pairwise (fun a b => strLeB a b = true)) :
    (insertStr x l).Pairwise (fun a b => strLeB a b = true) := by
  induction l with
  | nil => simp [insertStr]
  | cons y ys ih =>
      rcases List.pairwise_cons.mp h with ⟨hy, hys⟩
      by_cases hxy : strLeB x y = true
      · rw [insertStr, if_pos hxy]
        refine List.pairwise_cons.mpr ⟨?_, h⟩
        intro b hb
        rcases List.mem_cons.mp hb with rfl | hb
        · exact hxy
        · exact strLeB_trans hxy (hy b hb)
      · rw [insertStr, if_neg (by simpa using hxy)]
        refine List.pairwise_cons.mpr ⟨?_, ih hys⟩
        intro b hb
        rcases mem_insertStr.mp hb with rfl | hb
        · exact (strLeB_total b y).resolve_left hxy
        · exact hy b hb

theorem sorted_sortStrs (l : List String) :
    (sortStrs l).Pairwise (fun a b => strLeB a b = true) := by
  induction l with
  | nil => simp [sortStrs]
  | cons x xs ih =>
      simp only [sortStrs]
      exact pairwise_insertStr ih

theorem sorted_mlbClasses (l : List String) :
    (mlbClasses l).Pairwise (fun a b => strLeB a b = true) :=
  sorted_sortStrs l.dedup

theorem mlb_transform_row_empty (classes : List String) :
    mlb_transform_row classes [] = List.replicate classes.length 0 := by
  induction classes with
  | nil => simp [mlb_transform_row]
  | cons c cs _ => simp [mlb_transform_row, List.replicate_succ]

theorem mlb_inverse_transform_row_zero (classes : List String) :
    mlb_inverse_transform_row classes (List.replicate classes.length 0) = [] := by
  induction classes with
  | nil => simp [mlb_inverse_transform_row]
  | cons c cs ih =>
      simpa [mlb_inverse_transform_row, List.replicate_succ] using ih

theorem inverse_transform_transform_eq (classes S : List String) :
    mlb_inverse_transform_row classes (mlb_transform_row classes S) =
      classes.filter (fun c => decide (c ∈ S)) := by
  induction classes with
  | nil => simp [mlb_inverse_transform_row, mlb_transform_row]
  | cons c cs ih =>
      by_cases hc : c ∈ S
      · simp [mlb_inverse_transform_row, mlb_transform_row, hc, List.filter_cons] at ih ⊢
        exact ih
      · simp [mlb_inverse_transform_row, mlb_transform_row, hc, List.filter_cons] at ih ⊢
        exact ih

theorem mem_inverse_transform_transform {classes S : List String} {name : String} :
    name ∈ mlb_inverse_transform_row classes (mlb_transform_row classes S) ↔
      name ∈ classes ∧ name ∈ S := by
  rw [inverse_transform_transform_eq]
  simp [List.mem_filter]

/-- Claim C2: for every subset `S` of the label vocabulary, multi-hot encoding
followed by decoding yields exactly the set `S` (membership agrees, order not
required); the empty label set encodes to the all-zero vector and the all-zero
vector decodes to the empty label list. -/
theorem C2_multi_label_roundtrip (L S : List String) (hsub : ∀ s ∈ S, s ∈ L) :
    (∀ name, name ∈ mlb_inverse_transform_row (mlbClasses L)
        (mlb_transform_row (mlbClasses L) S) ↔ name ∈ S) ∧
    mlb_transform_row (mlbClasses L) [] = List.replicate (mlbClasses L).length 0 ∧
    mlb_inverse_transform_row (mlbClasses L)
      (List.replicate (mlbClasses L).length 0) = [] := by
  refine ⟨fun name => ?_, mlb_transform_row_empty _, mlb_inverse_transform_row_zero _⟩
  rw [mem_inverse_transform_transform]
  exact ⟨fun h => h.2, fun h => ⟨mem_mlbClasses.mpr (hsub name h), h⟩⟩

/-- Concrete instance of C2 on the vocabulary `["a", "b"]` and the subset `["b"]`. -/
theorem C2_multi_label_roundtrip_witness :
    (∀ name, name ∈ mlb_inverse_transform_row (mlbClasses ["a", "b"])
        (mlb_transform_row (mlbClasses ["a", "b"]) ["b"]) ↔ name ∈ ["b"]) ∧
    mlb_transform_row (mlbClasses ["a", "b"]) [] =
      List.replicate (mlbClasses ["a", "b"]).length 0 ∧
    mlb_inverse_transform_row (mlbClasses ["a", "b"])
      (List.replicate (mlbClasses ["a", "b"]).length 0) = [] :=
  C2_multi_label_roundtrip ["a", "b"] ["b"] (by decide)

/-- Counterexample to claim C3 as stated: on the registry whose insertion order
is `["b", "a"]`, the encoder places the 1 for the present label `"b"` at position
1 (its rank in sklearn's *sorted* `classes_`), not at its registry position 0, so
the produced vector differs from the insertion-order multi-hot vector the claim
describes. -/
theorem C3_insertion_order_counterexample :
    mlb_transform_row (mlbClasses ["b", "a"]) ["b"] = [0, 1] ∧
    ["b", "a"].map (fun c => if c ∈ (["b"] : List String) then (1 : Nat) else 0) =
      [1, 0] ∧
    mlb_transform_row (mlbClasses ["b", "a"]) ["b"] ≠
      ["b", "a"].map (fun c => if c ∈ (["b"] : List String) then (1 : Nat) else 0) := by
  refine ⟨by decide, by decide, by decide⟩

/-- Claim C3 (amended): for every list of label names, the multi-label encoder
produces a vector of length equal to the number of distinct vocabulary labels,
with a 1 exactly at the position of each present (and known) label and 0
elsewhere, where position `i` corresponds to the i-th label of the
*lexicographically sorted* distinct vocabulary (sklearn's `classes_` order) —
not the registry's insertion order, with which it coincides only when the
registry keys happen to be sorted. -/
theorem C3_multi_hot_sorted_order (L xs : List String) :
    (mlb_transform_row (mlbClasses L) xs).length = (mlbClasses L).length ∧
    (mlbClasses L).Pairwise (fun a b => strLeB a b = true) ∧
    (mlbClasses L).Nodup ∧
    (∀ c, c ∈ mlbClasses L ↔ c ∈ L) ∧
    ∀ idx, idx < (mlbClasses L).length →
      (mlb_transform_row (mlbClasses L) xs).getD idx 0 =
        if (mlbClasses L).getD idx "" ∈ xs then 1 else 0 := by
  refine ⟨by simp [mlb_transform_row], sorted_mlbClasses L, nodup_mlbClasses L,
    fun c => mem_mlbClasses, fun idx hidx => ?_⟩
  rw [List.getD_eq_getElem?_getD, List.getD_eq_getElem?_getD,
    List.getElem?_eq_getElem (by simpa [mlb_transform_row] using hidx),
    List.getElem?_eq_getElem hidx]
  simp [mlb_transform_row]

/-- Concrete instance of the amended C3 on the registry `["b", "a"]`. -/
theorem C3_multi_hot_sorted_order_witness :
    (mlb_transform_row (mlbClasses ["b", "a"]) ["b"]).length =
      (mlbClasses ["b", "a"]).length ∧
    (mlb_transform_row (mlbClasses ["b", "a"]) ["b"]).getD 1 0 =
      if (mlbClasses ["b", "a"]).getD 1 "" ∈ (["b"] : List String) then 1 else 0 :=
  ⟨(C3_multi_hot_sorted_order ["b", "a"] ["b"]).1,
    (C3_multi_hot_sorted_order ["b", "a"] ["b"]).2.2.2.2 1 (by decide)⟩

theorem getElem_lt_indexOf_ne {l : List Rat} {a : Rat} {k : Nat}
    (hk : k < l.indexOf a) (hl : k < l.length) : l[k] ≠ a := by
  induction l generalizing k with
  | nil => simp at hl
  | cons x xs ih =>
      by_cases hx : x = a
      · simp [List.indexOf_cons, hx] at hk
      · cases k with
        | zero => simpa using hx
        | succ k =>
            have hk' : k < xs.indexOf a := by
              have hxb : (x == a) = false := beq_eq_false_iff_ne.mpr hx
              simp only [List.indexOf_cons, hxb, cond_false] at hk
              omega
            simpa using ih hk' (by simpa using hl)

theorem argmaxIdx_spec (r : List Rat) (hne : r ≠ []) :
    ∃ j, argmaxIdx r = some j ∧ j < r.length ∧
      (∀ k, k < r.length → r.getD k 0 ≤ r.getD j 0) ∧
      (∀ k, k < j → r.getD k 0 < r.getD j 0) := by
  obtain ⟨m, hm⟩ : ∃ m, r.max? = some m := by
    cases h : r.max? with
    | none => exact absurd (List.max?_eq_none_iff.mp h) hne
    | some m => exact ⟨m, rfl⟩
  obtain ⟨hmem, hmax⟩ := (@List.max?_eq_some_iff Rat m _ _
    ⟨fun h1 h2 => le_antisymm h1 h2⟩ (fun a => le_refl a)
    (fun a b => max_choice a b) (fun a b c => max_le_iff)).mp hm
  have hj : r.indexOf m < r.length := List.indexOf_lt_length.mpr hmem
  have hjm : r[r.indexOf m] = m := List.getElem_indexOf hj
  refine ⟨r.indexOf m, by simp [argmaxIdx, hm], hj, ?_, ?_⟩
  · intro k hk
    rw [List.getD_eq_getElem?_getD, List.getD_eq_getElem?_getD,
      List.getElem?_eq_getElem hk, List.getElem?_eq_getElem hj]
    simpa [hjm] using hmax _ (List.getElem_mem hk)
  · intro k hk
    have hkl : k < r.length := lt_trans hk hj
    rw [List.getD_eq_getElem?_getD, List.getD_eq_getElem?_getD,
      List.getElem?_eq_getElem hkl, List.getElem?_eq_getElem hj]
    rw [hjm]
    exact lt_of_le_of_ne (hmax _ (List.getElem_mem hkl))
      (getElem_lt_indexOf_ne hk hkl)

theorem argmaxIdx_isSome {r : List Rat} (hne : r ≠ []) :
    argmaxIdx r = some ((argmaxIdx r).getD 0) := by
  obtain ⟨j, hj, _⟩ := argmaxIdx_spec r hne
  simp [hj]

theorem mapM_argmaxIdx (scores : List (List Rat)) (hne : ∀ r ∈ scores, r ≠ []) :
    scores.mapM argmaxIdx = some (scores.map (fun r => (argmaxIdx r).getD 0)) := by
  induction scores with
  | nil => rfl
  | cons r rs ih =>
      rw [List.mapM_cons, argmaxIdx_isSome (hne r (List.mem_cons_self r rs)),
        ih (fun s hs => hne s (List.mem_cons_of_mem r hs))]
      simp

theorem argmaxAxis1_eq (scores : List (List Rat)) (hne : ∀ r ∈ scores, r ≠ []) :
    argmaxAxis1 (.n2 scores) = some (.n1 (argmaxPreds scores)) := by
  simp only [argmaxAxis1]
  rw [mapM_argmaxIdx scores hne, Option.map_some', List.map_map]
  rfl

/-- Claim C4: in single-label mode `compute_metrics` reduces each example's
per-class score row to a predicted id by arg-max over the class axis (the first
index attaining the row maximum), and returns exactly the four scalar metrics:
accuracy, and precision, recall and F1 each per-class averaged weighted by class
support. -/
theorem C4_single_label_metrics (t : Int) (g : List Rat)
    (scores : List (List Rat)) (hlen : g.length = scores.length)
    (hne : ∀ r ∈ scores, r ≠ []) :
    compute_metrics .singleLabel t (.n1 g) (.n2 scores) =
      some { accuracy := accuracy1 g (argmaxPreds scores),
             precision := precisionWeighted g (argmaxPreds scores),
             recallVal := recallWeighted g (argmaxPreds scores),
             f1_score := f1Weighted g (argmaxPreds scores) } ∧
    ∀ r ∈ scores, ∃ j, argmaxIdx r = some j ∧ j < r.length ∧
      (∀ k, k < r.length → r.getD k 0 ≤ r.getD j 0) ∧
      (∀ k, k < j → r.getD k 0 < r.getD j 0) := by
  constructor
  · have hplen : (argmaxPreds scores).length = scores.length := by
      simp [argmaxPreds]
    simp [compute_metrics, metricsReduce, argmaxAxis1_eq scores hne,
      evalMetricsPair, hlen, hplen]
  · exact fun r hr => argmaxIdx_spec r (hne r hr)

/-- Concrete instance of C4: two examples, two classes. -/
theorem C4_single_label_metrics_witness :
    compute_metrics .singleLabel 0 (.n1 [0, 1]) (.n2 [[5, 2], [1, 3]]) =
      some { accuracy := accuracy1 [0, 1] (argmaxPreds [[5, 2], [1, 3]]),
             precision := precisionWeighted [0, 1] (argmaxPreds [[5, 2], [1, 3]]),
             recallVal := recallWeighted [0, 1] (argmaxPreds [[5, 2], [1, 3]]),
             f1_score := f1Weighted [0, 1] (argmaxPreds [[5, 2], [1, 3]]) } :=
  (C4_single_label_metrics 0 [0, 1] [[5, 2], [1, 3]] (by decide)
    (by decide)).1

/-- Claim C5: in multi-label mode the gold matrix is mapped to booleans by
equality to 1 and the score matrix is mapped to booleans independently per label
by *strict* comparison with the configured threshold, so a score exactly equal to
the threshold is classified negative and a score one unit above it positive. -/
theorem C5_multi_label_threshold (t : Int) (gold scores : List (List Rat)) :
    labels_to_bools (.n2 gold) = .b2 (gold.map (fun r => r.map (fun x => x == 1))) ∧
    preds_to_bools t (.n2 scores) =
      .b2 (scores.map (fun r => r.map (fun x => decide (x > (t : Rat))))) ∧
    preds_to_bools t (.n2 [[(t : Rat)]]) = .b2 [[false]] ∧
    preds_to_bools t (.n2 [[(t : Rat) + 1]]) = .b2 [[true]] := by
  refine ⟨rfl, rfl, ?_, ?_⟩
  · simp [preds_to_bools]
  · simp [preds_to_bools]

theorem mapM_eq_none {α β : Type} (f : α → Option β) (l : List α) (a : α)
    (ha : a ∈ l) (hf : f a = none) : l.mapM f = none := by
  induction l with
  | nil => simp at ha
  | cons hd tl ih =>
      rw [List.mapM_cons]
      rcases List.mem_cons.mp ha with rfl | ha'
      · simp [hf]
      · cases hhd : f hd with
        | none => simp
        | some b =>
            have h2 : tl.mapM f = none := ih ha'
            show (tl.mapM f).bind (fun xs => some (b :: xs)) = none
            rw [h2]
            rfl

/-- Counterexample to claim C6 as stated: in multi-label mode a row naming the
unknown label `"zzz"` does not make encoding fail — sklearn's `transform`
silently drops it (emitting only a warning) and preprocessing succeeds with the
unknown name leaving no trace in the encoded target. -/
theorem C6_unknown_label_counterexample :
    preprocess_function .multiLabel ⟨[("a", 0)]⟩ (fun ts => ts.map (fun _ => []))
      ["doc"] (some [.names ["a", "zzz"]]) =
      some { inputIds := [[]], label := some (.multihot [[1]]) } ∧
    preprocess_function .multiLabel ⟨[("a", 0)]⟩ (fun ts => ts.map (fun _ => []))
      ["doc"] (some [.names ["a", "zzz"]]) ≠ none := by
  exact ⟨by decide, by decide⟩

/-- Claim C6 (amended): in *single-label* mode a row whose label field names a
label absent from the registry makes encoding fail with a KeyError-class lookup
error and preprocessing aborts; in *multi-label* mode, however, unknown label
names are silently dropped by the binarizer's `transform` (warning only):
encoding always succeeds and yields the same multi-hot vector as the input with
the unknown names removed. -/
theorem C6_unknown_label_behaviour (j : LabelsJson)
    (tok : List String → List (List Nat)) (texts : List String)
    (cells : List LabelField) (nm : String)
    (hmem : LabelField.name nm ∈ cells) (hunk : j.label2id nm = none) :
    preprocess_function .singleLabel j tok texts (some cells) = none ∧
    ∀ classes xs, mlb_transform_row classes xs =
      mlb_transform_row classes (xs.filter (fun x => decide (x ∈ classes))) := by
  constructor
  · have hcell : encodeSingleCell j (.name nm) = none := hunk
    have hnone := mapM_eq_none (encodeSingleCell j) cells _ hmem hcell
    simp only [preprocess_function]
    rw [hnone]
    rfl
  · intro classes xs
    refine List.map_congr_left (fun c hc => ?_)
    by_cases hcx : c ∈ xs
    · simp [hcx, List.mem_filter, hc]
    · simp [hcx, List.mem_filter]

/-- Concrete instance of the amended C6: single-label encoding of the unknown
name `"x"` over the registry `{"a": 0}` aborts. -/
theorem C6_unknown_label_behaviour_witness :
    preprocess_function .singleLabel ⟨[("a", 0)]⟩ (fun ts => ts.map (fun _ => []))
      ["doc"] (some [.name "x"]) = none :=
  (C6_unknown_label_behaviour ⟨[("a", 0)]⟩ (fun ts => ts.map (fun _ => []))
    ["doc"] [.name "x"] "x" (by decide) (by decide)).1


theorem writePredLoop_eq (j : LabelsJson) (classes : List String)
    (items : List (Nat ⊕ List Bool))
    (hdec : ∀ p ∈ items, (renderPred j classes p).isSome = true) :
    ∀ (idx : Nat) (acc : String),
      writePredLoop j classes idx acc items =
        some (acc ++ strJoin ((items.enumFrom idx).map
          (fun q => toString q.1 ++ "\t" ++ (renderPred j classes q.2).getD "" ++ "\n"))) := by
  induction items with
  | nil =>
      intro idx acc
      simp [writePredLoop, List.enumFrom, strJoin, String.append_empty]
  | cons p ps ih =>
      intro idx acc
      obtain ⟨s, hs⟩ := Option.isSome_iff_exists.mp (hdec p (List.mem_cons_self p ps))
      rw [writePredLoop, hs]
      show writePredLoop j classes (idx + 1)
        (acc ++ toString idx ++ "\t" ++ s ++ "\n") ps = _
      rw [ih (fun q hq => hdec q (List.mem_cons_of_mem p hq)) (idx + 1)
        (acc ++ toString idx ++ "\t" ++ s ++ "\n"), List.enumFrom_cons]
      simp [hs, strJoin, String.append_assoc]

/-- Counterexample to claim C7 as stated: with the registry `{"approval": 0}`
and the single-label prediction id 0, the written row is
`0 TAB ['approval']` — the prediction is rendered as the one-element Python list
literal containing the decoded name (the f-string formats `pred_strings`, which
the code wraps in a list), not as the bare decoded label name `approval` the
claim describes. -/
theorem C7_predictions_file_counterexample :
    writePredictionsFile ⟨[("approval", 0)]⟩ ["approval"] (.single [0]) =
      some ("index\tprediction\n0\t['approval']\n") ∧
    writePredictionsFile ⟨[("approval", 0)]⟩ ["approval"] (.single [0]) ≠
      some ("index\tprediction\n0\tapproval\n") := by
  exact ⟨by decide, by decide⟩

/-- Claim C7 (amended): when prediction runs and the process is the coordinating
writer, `predictions.txt` is the header line `index TAB prediction` followed by
one tab-separated row per example in dataset order with indices counting from 0;
each row carries the prediction rendered the way Python prints `pred_strings`: a
*one-element list literal containing* the decoded label name in single-label
mode, and the tuple literal of the decoded label names in multi-label mode. -/
theorem C7_predictions_file_format (j : LabelsJson) (classes : List String)
    (ids : List Nat) (rows : List (List Bool))
    (hdec : ∀ i ∈ ids, (j.id2label i).isSome = true) :
    writePredictionsFile j classes (.single ids) =
      some ("index\tprediction\n" ++ strJoin ((ids.enumFrom 0).map
        (fun q => toString q.1 ++ "\t" ++ pyListRepr [(j.id2label q.2).getD ""] ++ "\n"))) ∧
    writePredictionsFile j classes (.multi rows) =
      some ("index\tprediction\n" ++ strJoin ((rows.enumFrom 0).map
        (fun q => toString q.1 ++ "\t" ++
          pyTupleRepr (mlb_inverse_transform_rowB classes q.2) ++ "\n"))) := by
  constructor
  · have hdec' : ∀ p ∈ predItems (.single ids), (renderPred j classes p).isSome = true := by
      intro p hp
      simp only [predItems, List.mem_map] at hp
      obtain ⟨i, hi, rfl⟩ := hp
      obtain ⟨nm, hnm⟩ := Option.isSome_iff_exists.mp (hdec i hi)
      simp [renderPred, hnm]
    rw [writePredictionsFile, writePredLoop_eq j classes _ hdec' 0 _]
    show some (_ ++ strJoin ((List.enumFrom 0 (ids.map Sum.inl)).map _)) = _
    rw [List.enumFrom_map, List.map_map]
    have hmap : ∀ q ∈ List.enumFrom 0 ids,
        ((fun q => toString q.1 ++ "\t" ++ (renderPred j classes q.2).getD "" ++ "\n") ∘
          Prod.map id Sum.inl) q =
        toString q.1 ++ "\t" ++ pyListRepr [(j.id2label q.2).getD ""] ++ "\n" := by
      intro q hq
      obtain ⟨a, b⟩ := q
      have hb : b ∈ ids := by
        obtain ⟨h1, h2, h3⟩ := List.mem_enumFrom hq
        exact h3 ▸ List.getElem_mem _
      obtain ⟨nm, hnm⟩ := Option.isSome_iff_exists.mp (hdec b hb)
      simp [renderPred, hnm, Prod.map]
    rw [List.map_congr_left hmap]
  · have hdec' : ∀ p ∈ predItems (.multi rows), (renderPred j classes p).isSome = true := by
      intro p hp
      simp only [predItems, List.mem_map] at hp
      obtain ⟨r, hr, rfl⟩ := hp
      simp [renderPred]
    rw [writePredictionsFile, writePredLoop_eq j classes _ hdec' 0 _]
    show some (_ ++ strJoin ((List.enumFrom 0 (rows.map Sum.inr)).map _)) = _
    rw [List.enumFrom_map, List.map_map]
    have hmap : ∀ q ∈ List.enumFrom 0 rows,
        ((fun q => toString q.1 ++ "\t" ++ (renderPred j classes q.2).getD "" ++ "\n") ∘
          Prod.map id Sum.inr) q =
        toString q.1 ++ "\t" ++
          pyTupleRepr (mlb_inverse_transform_rowB classes q.2) ++ "\n" := by
      intro q hq
      obtain ⟨a, b⟩ := q
      simp [renderPred, Prod.map]
    rw [List.map_congr_left hmap]

/-- Concrete instance of the amended C7 for a one-example single-label run. -/
theorem C7_predictions_file_format_witness :
    writePredictionsFile ⟨[("approval", 0)]⟩ ["approval"] (.single [0]) =
      some ("index\tprediction\n" ++ strJoin ((([0] : List Nat).enumFrom 0).map
        (fun q => toString q.1 ++ "\t" ++
          pyListRepr [(LabelsJson.id2label ⟨[("approval", 0)]⟩ q.2).getD ""] ++ "\n"))) :=
  (C7_predictions_file_format ⟨[("approval", 0)]⟩ ["approval"] [0] []
    (by decide)).1

/-- Claim C8: when the "is coordinating process" predicate supplied by the
external trainer is false, the prediction step writes neither `predictions.txt`
nor `prediction_report.txt` — the file-system state for the two output paths is
returned unchanged. -/
theorem C8_writer_guard (predContent reportContent : String) (fs : OutFiles) :
    predictionWriteStep false predContent reportContent fs = fs := rfl

/-- Counterexample to claim C9 as stated: with training requested, the overwrite
flag unset, and a non-empty output directory containing the checkpoint directory
`checkpoint-5`, *no* configuration error is raised — the pipeline proceeds (and
resumes from the checkpoint) although the directory exists and is non-empty. -/
theorem C9_nonempty_dir_counterexample :
    mainPipeline true [⟨"checkpoint-5", true⟩] true false false false =
      .ok [MainAction.loadTrainSet, MainAction.loadLabelRegistry,
        MainAction.loadModel, MainAction.preprocessDatasets, MainAction.trainStep] := by
  rfl

/-- Claim C9 (amended): if training is requested, the output directory exists
and is non-empty, the overwrite flag is not set *and no checkpoint directory is
detected inside it*, a fatal configuration error is raised before any dataset
loading, preprocessing, training, evaluation or file writing takes place (the
pipeline performs no action); if the non-empty directory does contain a
checkpoint, no error is raised and training resumes from it instead. -/
theorem C9_startup_config_error (entries : List DirEntry)
    (doEval doPredict : Bool) (hne : entries ≠ [])
    (hnocp : get_last_checkpoint entries = none) :
    mainPipeline true entries true doEval doPredict false =
      .error "Output directory already exists and is not empty. Use --overwrite_output_dir to overcome." ∧
    ∀ acts, mainPipeline true entries true doEval doPredict false ≠ .ok acts := by
  have hlen : entries.length > 0 := List.length_pos.mpr hne
  have hdetect : detectLastCheckpoint true entries true false =
      .error "Output directory already exists and is not empty. Use --overwrite_output_dir to overcome." := by
    simp [detectLastCheckpoint, hnocp, hlen]
  constructor
  · simp [mainPipeline, hdetect]
  · intro acts
    simp [mainPipeline, hdetect]

/-- Concrete instance of the amended C9: a directory holding one stray file and
no checkpoint aborts the run. -/
theorem C9_startup_config_error_witness :
    mainPipeline true [⟨"stuff", false⟩] true false false false =
      .error "Output directory already exists and is not empty. Use --overwrite_output_dir to overcome." :=
  (C9_startup_config_error [⟨"stuff", false⟩] false false (by decide)
    (by decide)).1

/-- Counterexample to claim C10 as stated: in regression mode a batch arriving
with a label column yields a tokenized batch with *no* label column — the
original columns (label included) are removed by the dataset mapping and
`preprocess_function` adds no `"label"` key — so the label column does not pass
through to the trainer unchanged. -/
theorem C10_regression_label_drop_counterexample :
    preprocess_function .regression ⟨[("a", 0)]⟩ (fun ts => ts.map (fun _ => []))
      ["doc"] (some [.name "1.5"]) =
      some { inputIds := [[]], label := none } ∧
    (preprocess_function .regression ⟨[("a", 0)]⟩ (fun ts => ts.map (fun _ => []))
      ["doc"] (some [.name "1.5"])).map TokenizedBatch.label = some none := by
  exact ⟨by decide, by decide⟩

/-- Claim C10 (amended): when the problem type is regression the preprocessing
function applies no label encoding — but the label column does not pass through
unchanged: the returned dict has no `"label"` key (and the surrounding dataset
mapping removes the original columns), so the trainer receives no labels; and
`compute_metrics` applies no reduction to either predictions or gold labels,
handing both raw arrays to the metric functions; only the two classification
problem types trigger encoding or arg-max/threshold reduction. -/
theorem C10_regression_passthrough (j : LabelsJson)
    (tok : List String → List (List Nat)) (texts : List String)
    (cells : Option (List LabelField)) (t : Int) (labelIds preds : Arr) :
    preprocess_function .regression j tok texts cells =
      some { inputIds := tok texts, label := none } ∧
    metricsReduce .regression t labelIds preds = (labelIds, some preds) ∧
    compute_metrics .regression t labelIds preds = evalMetricsPair labelIds preds := by
  exact ⟨rfl, rfl, rfl⟩
